import Mathlib

/-!
# Verification of the ragforge knowledge-construction and retrieval pipeline

Shallow embedding of the ragforge RAG pipeline:

* `src/src/ragforge/strategies/chunking.py` — `SentenceChunkingStrategy.chunk`
* `src/src/ragforge/strategies/retrieval.py` — `VectorOnlyRetrievalStrategy` /
  `HybridRetrievalStrategy`
* `src/src/ragforge/vector/qdrant.py` — `VectorStore.add_texts`
* `src/ragforge/graph/neo4j_store.py` — `GraphStore.__init__`,
  `add_document_to_graph`
* `src/src/ragforge/rag.py` — `ingest`, `ask`
* `src/ragforge/settings.py` — the configuration defaults

Text is modelled as `List Char`/`String`; Python `str.strip`, slicing
(including negative indices) and the chunking loop are embedded faithfully.
External effects (Qdrant, Neo4j, the LLM, `json.loads`) are modelled as
explicit outcome parameters collected in an `Env`; timestamps and generated
ids are threaded as arguments.  Python exception flow is encoded as
control flow on `Except`.
-/

namespace Ragforge

/-! ## Python string primitives

`str.strip()` removes leading/trailing whitespace.  We model the ASCII
whitespace characters recognised by CPython (space, tab, newline, carriage
return, vertical tab, form feed); the source never produces non-ASCII
whitespace at chunk boundaries. -/

def isPySpace (c : Char) : Bool :=
  c = ' ' || c = '\t' || c = '\n' || c = '\r' || c = Char.ofNat 11 || c = Char.ofNat 12

/-- Python `str.strip()` on a character list: drop leading whitespace, then
trailing whitespace. -/
def pyStrip (l : List Char) : List Char :=
  (l.dropWhile isPySpace).rdropWhile isPySpace

/-- Python `str.strip()` on a `String`. -/
def pyStripStr (s : String) : String := ⟨pyStrip s.data⟩

/-- Python `str.upper()` (character-wise; the source only feeds it ASCII
entity/relationship type strings). -/
def pyUpper (s : String) : String := ⟨s.data.map Char.toUpper⟩

/-- Python `str.lower()` (character-wise). -/
def pyLower (s : String) : String := ⟨s.data.map Char.toLower⟩

/-- Python `.replace(" ", "_")` — single-character pattern, so a
character-wise map. -/
def pyReplaceSpaceUnderscore (s : String) : String :=
  ⟨s.data.map (fun c => if c = ' ' then '_' else c)⟩

/-- Normalise one Python slice index: negative indices count from the end,
and the result is clamped to `[0, len]`. -/
def sliceIdx (len : Nat) (i : Int) : Nat :=
  if i < 0 then ((len : Int) + i).toNat else min i.toNat len

/-- Python slice `l[a:b]`. -/
def pySlice (l : List Char) (a b : Int) : List Char :=
  (l.take (sliceIdx l.length b)).drop (sliceIdx l.length a)

/-! ## Chunker — `SentenceChunkingStrategy.chunk`
(src/src/ragforge/strategies/chunking.py lines 16-68; `_chunk_text` in
src/src/ragforge/utils.py lines 240-285 is the identical loop). -/

/-- The sentence terminators `'.!?\n'` of the boundary scan. -/
def isTerminator (c : Char) : Bool :=
  c = '.' || c = '!' || c = '?' || c = '\n'

/-- Backward scan `for i in range(len(chunk)-1, lo, -1)` looking for a
sentence terminator; the last argument is the current index `i`.  Returns
the first (largest) index found, `none` when the scan falls through. -/
def findTermFrom (chunk : List Char) (lo : Nat) : Nat → Option Nat
  | 0 => none
  | i+1 =>
    if i+1 ≤ lo then none
    else if isTerminator (chunk.getD (i+1) ' ') then some (i+1)
    else findTermFrom chunk lo i

/-- The chunk-extraction part of one loop iteration of
`SentenceChunkingStrategy.chunk`: the window `text[start:start+chunk_size]`,
truncated at the latest sentence terminator in the final 20% of the window
(only when not at end-of-text and `chunk_size > 100`), together with the
resulting `end` position. -/
def chunkCore (text : List Char) (chunk_size : Nat) (start : Int) :
    List Char × Int :=
  let end0 : Int := start + (chunk_size : Int)
  let chunk0 := pySlice text start end0
  if end0 < (text.length : Int) ∧ chunk_size > 100 then
    -- search_start = max(0, chunk_size - chunk_size // 5); Nat subtraction
    -- coincides with the Python max(0, ·)
    let search_start := chunk_size - chunk_size / 5
    match findTermFrom chunk0 search_start (chunk0.length - 1) with
    | some i => (chunk0.take (i+1), start + ((i : Int) + 1))
    | none => (chunk0, end0)
  else (chunk0, end0)

/-- One iteration of the `while start < text_length` loop body of
`SentenceChunkingStrategy.chunk`: computes the chunk appended on this
iteration (already `.strip()`ped, as in the source) and the next value of
`start`.  `chunk_overlap` is the already-clamped overlap. -/
def chunkStep (text : List Char) (chunk_size chunk_overlap : Nat) (start : Int) :
    List Char × Int :=
  let r := chunkCore text chunk_size start
  (pyStrip r.1, if chunk_overlap > 0 then r.2 - (chunk_overlap : Int) else r.2)

/-- The chunking loop, fuelled.  The Python loop `while start < text_length`
has no fuel; the fuel only bounds how many iterations we unfold, and each
produced element corresponds exactly to one Python iteration.  (For
`chunk_overlap = 0` the loop terminates within `text.length` iterations; for
positive overlap there are inputs on which the Python loop never exits, as
the `start`-cursor fixed point exhibited below shows.) -/
def chunkLoop (text : List Char) (chunk_size chunk_overlap : Nat) :
    Nat → Int → List (List Char)
  | 0, _ => []
  | fuel+1, start =>
    if start < (text.length : Int) then
      let r := chunkStep text chunk_size chunk_overlap start
      r.1 ::
        (if r.2 ≥ (text.length : Int) then []
         else chunkLoop text chunk_size chunk_overlap fuel r.2)
    else []

/-- `SentenceChunkingStrategy.chunk(text, chunk_size, chunk_overlap)`.
Guards: `chunk_size <= 0` returns `[text]`; `chunk_overlap >= chunk_size`
is clamped to `chunk_size - 1`; the final list comprehension removes empty
chunks. -/
def sentenceChunk (text : List Char) (chunk_size chunk_overlap : Int) :
    List (List Char) :=
  if chunk_size ≤ 0 then [text]
  else
    let co := if chunk_overlap ≥ chunk_size then chunk_size - 1 else chunk_overlap
    (chunkLoop text chunk_size.toNat co.toNat (text.length + 1) 0).filter
      (fun c => !c.isEmpty)

/-- Start positions of successive loop iterations from `start = 0`. -/
def startIter (text : List Char) (chunk_size chunk_overlap : Nat) : Nat → Int
  | 0 => 0
  | n+1 => (chunkStep text chunk_size chunk_overlap (startIter text chunk_size chunk_overlap n)).2

/-- The 301-character text `"a"*150 ++ "." ++ "a"*150` used to exhibit the
non-terminating chunking loop. -/
def stallText : List Char :=
  List.replicate 150 'a' ++ '.' :: List.replicate 150 'a'

/-! ## Graph store — `src/ragforge/graph/neo4j_store.py`

The Neo4j property graph is modelled as explicit lists of entity nodes and
`RELATES_TO` edges, in insertion order (`MATCH ... LIMIT 1` picks the first
match in that order).  `timestamp()` is threaded as a `now : Nat` argument.
The LLM extraction (`extract_entities_and_relationships`) is an external
call; its result is passed in as an `Extraction` (on any LLM or JSON
failure the source degrades it to the empty extraction). -/

structure Entity where
  id : String
  name : String
  etype : String
  created : Nat
  lastSeen : Nat
deriving DecidableEq

structure Rel where
  src : String
  tgt : String
  rtype : String
  descr : String
  created : Nat
  lastSeen : Nat
deriving DecidableEq

structure Graph where
  entities : List Entity
  rels : List Rel
deriving DecidableEq

def emptyGraph : Graph := ⟨[], []⟩

/-- One entity candidate from the extraction JSON, after the
`entity.get("name", "")` / `entity.get("type", "OTHER")` defaulting. -/
structure EntityCand where
  name : String
  etype : String
deriving DecidableEq

/-- One relationship candidate from the extraction JSON, after the
`rel.get(..., default)` defaulting. -/
structure RelCand where
  source : String
  target : String
  rtype : String
  description : String
deriving DecidableEq

structure Extraction where
  entities : List EntityCand
  relationships : List RelCand
deriving DecidableEq

/-- The entity-merge step of `add_document_to_graph`: trim the name (skip
when empty), uppercase the type, build `f"{entity_type}:{entity_name}"` and
`MERGE` the node on that id (`SET name/type/last_seen`, `ON CREATE SET
created`). -/
def mergeEntity (g : Graph) (now : Nat) (cand : EntityCand) : Graph :=
  let entity_name := pyStripStr cand.name
  let entity_type := pyUpper cand.etype
  if entity_name = "" then g
  else
    let entity_id := entity_type ++ ":" ++ entity_name
    if (g.entities.find? (fun e => e.id == entity_id)).isSome then
      ⟨g.entities.map (fun e =>
          if e.id == entity_id then
            ⟨e.id, entity_name, entity_type, e.created, now⟩
          else e),
        g.rels⟩
    else
      ⟨g.entities ++ [⟨entity_id, entity_name, entity_type, now, now⟩], g.rels⟩

/-- `MATCH (e:Entity {name: $name}) RETURN e.id LIMIT 1` — an exact,
case-sensitive property match on `name`, returning the first stored match. -/
def lookupByName (g : Graph) (name : String) : Option String :=
  (g.entities.find? (fun e => e.name == name)).map (fun e => e.id)

/-- The relationship-merge step of `add_document_to_graph`: trim the
endpoint names (skip when either is empty), normalise the type, resolve
each endpoint via `lookupByName` (skip the candidate when either lookup
fails), then `MERGE` the edge keyed on `(source_id, target_id, rel_type)`
(`SET description/last_seen`, `ON CREATE SET created`). -/
def mergeRel (g : Graph) (now : Nat) (cand : RelCand) : Graph :=
  let source_name := pyStripStr cand.source
  let target_name := pyStripStr cand.target
  let rel_type := pyReplaceSpaceUnderscore (pyUpper cand.rtype)
  let description := pyStripStr cand.description
  if source_name = "" ∨ target_name = "" then g
  else
    match lookupByName g source_name with
    | none => g   -- Skip if source entity doesn't exist
    | some source_id =>
      match lookupByName g target_name with
      | none => g   -- Skip if target entity doesn't exist
      | some target_id =>
        if (g.rels.find? (fun r =>
            r.src == source_id && r.tgt == target_id && r.rtype == rel_type)).isSome
        then
          ⟨g.entities, g.rels.map (fun r =>
            if r.src == source_id && r.tgt == target_id && r.rtype == rel_type then
              ⟨r.src, r.tgt, r.rtype, description, r.created, now⟩
            else r)⟩
        else
          ⟨g.entities, g.rels ++ [⟨source_id, target_id, rel_type, description, now, now⟩]⟩

/-- `GraphStore.add_document_to_graph(text, doc_id)` given the extraction
produced for `text` (the `doc_id` argument is accepted and ignored by the
source).  With no driver the call is a no-op; with an empty extraction it
returns early; otherwise all entity candidates are merged first, then all
relationship candidates. -/
def addDocumentToGraph (g : Graph) (driver : Bool) (extracted : Extraction)
    (now : Nat) : Graph :=
  if !driver then g
  else if extracted.entities.isEmpty && extracted.relationships.isEmpty then g
  else
    let g1 := extracted.entities.foldl (fun acc c => mergeEntity acc now c) g
    extracted.relationships.foldl (fun acc c => mergeRel acc now c) g1

/-- A sequence of `add_document_to_graph` calls on a connected store,
starting from an empty graph. -/
def runGraphOps (ops : List (Extraction × Nat)) : Graph :=
  ops.foldl (fun g op => addDocumentToGraph g true op.1 op.2) emptyGraph

/-- Referential integrity of the stored edges: every relationship's source
and target id belongs to some stored entity. -/
def RelIntegrity (g : Graph) : Prop :=
  ∀ r ∈ g.rels,
    (∃ e ∈ g.entities, e.id = r.src) ∧ (∃ e ∈ g.entities, e.id = r.tgt)

/-- Extraction whose relationship candidate names an already-merged entity
(`Paris`) only up to letter case (`paris`). -/
def caseDemoExt : Extraction :=
  ⟨[⟨"Paris", "LOCATION"⟩, ⟨"France", "LOCATION"⟩],
   [⟨"paris", "France", "LOCATED_IN", "capital of"⟩]⟩

/-- A store already holding two merged entities, used to witness exact-name
resolution. -/
def parisGraph : Graph :=
  ⟨[⟨"LOCATION:Paris", "Paris", "LOCATION", 0, 0⟩,
    ⟨"LOCATION:France", "France", "LOCATION", 0, 0⟩], []⟩

/-! ## Vector store — `VectorStore.add_texts`
(src/src/ragforge/vector/qdrant.py lines 100-133) -/

/-- Payload metadata dictionaries are opaque to `add_texts`; model them as
association lists. -/
abbrev Metadata := List (String × String)

/-- One Qdrant point as constructed by `add_texts`: the id, the text to be
embedded, and the metadata merged into the payload. -/
structure Point where
  pid : String
  text : String
  metadata : Metadata
deriving DecidableEq

/-- What `add_texts` does short of the external upsert: `earlyReturn` for
the empty-`texts` fast path (no client interaction at all), `upsert pts`
when the call reaches `self.client.upsert` with the constructed points.
A `.error` is the `ValueError` raised by argument validation, before any
embedding or storage call. -/
inductive AddTextsCall where
  | earlyReturn
  | upsert (points : List Point)
deriving DecidableEq

/-- The `metadatas` defaulting/validation block of `add_texts`:
`[{}] * len(texts)` when omitted, `ValueError` on a length mismatch. -/
def validateMetadatas (texts : List String) :
    Option (List Metadata) → Except String (List Metadata)
  | none => .ok (List.replicate texts.length [])
  | some ms =>
    if ms.length ≠ texts.length then
      .error "metadatas must have the same length as texts"
    else .ok ms

/-- The `ids` defaulting/validation block of `add_texts`: fresh
`uuid.uuid4()` strings when omitted, `ValueError` on a length mismatch. -/
def validateIds (genId : Nat → String) (texts : List String) :
    Option (List String) → Except String (List String)
  | none => .ok ((List.range texts.length).map genId)
  | some idl =>
    if idl.length ≠ texts.length then
      .error "ids must have the same length as texts"
    else .ok idl

/-- `VectorStore.add_texts(texts, metadatas, ids)`.  `genId` supplies the
`uuid.uuid4()` values used when `ids` is omitted. -/
def add_texts (genId : Nat → String) (texts : List String)
    (metadatas : Option (List Metadata)) (ids : Option (List String)) :
    Except String AddTextsCall :=
  if texts.isEmpty then .ok .earlyReturn
  else
    match validateMetadatas texts metadatas with
    | .error e => .error e
    | .ok ms =>
      match validateIds genId texts ids with
      | .error e => .error e
      | .ok idl =>
        .ok (.upsert ((texts.zip (ms.zip idl)).map
          (fun p => ⟨p.2.2, p.1, p.2.1⟩)))

/-! ## Errors and JSON values -/

/-- The ragforge error taxonomy (src/src/ragforge/errors.py); every variant
derives from `RagforgeError`. -/
inductive RagError where
  | configuration (msg : String)
  | provider (msg : String)
  | retrieval (msg : String)
  | ingestion (msg : String)
  | graph (msg : String)
deriving DecidableEq

/-- `str(e)` of a modelled error. -/
def RagError.msg : RagError → String
  | .configuration m => m
  | .provider m => m
  | .retrieval m => m
  | .ingestion m => m
  | .graph m => m

/-- A Python exception as seen by the `try`/`except` ladder in `ask`:
either a `RagforgeError` subclass, or any other exception (`ValueError`,
`TypeError`, ...). -/
inductive PyExc where
  | ragforge (e : RagError)
  | otherExc
deriving DecidableEq

/-- JSON values as returned by `json.loads`. -/
inductive Json where
  | null
  | bool (b : Bool)
  | num (n : Int)
  | str (s : String)
  | arr (items : List Json)
  | obj (fields : List (String × Json))

/-- Python `x == key` for a deserialised JSON value `x` and a string `key`:
only an equal string compares equal. -/
def Json.eqStr (x : Json) (key : String) : Bool :=
  match x with
  | .str s => s == key
  | _ => false

/-- Python `key in parsed` on a value deserialised by `json.loads`:
key-membership on dicts, substring test on strings, element test on lists;
on the remaining scalars CPython raises `TypeError` (modelled as `none`). -/
def pyContains (j : Json) (key : String) : Option Bool :=
  match j with
  | .obj fields => some (fields.any (fun kv => kv.1 == key))
  | .str s => some (decide (key.data <:+: s.data))
  | .arr items => some (items.any (fun x => x.eqStr key))
  | _ => none

/-- The markdown code-fence stripping applied to LLM responses in `ask`
(src/src/ragforge/rag.py lines 127-134): `strip()`, then drop a leading
"```json" or "```", then a trailing "```". -/
def cleanResponse (raw : String) : String :=
  let c0 := pyStripStr raw
  let c1 := if c0.startsWith "```json" then c0.drop 7 else c0
  let c2 := if c1.startsWith "```" then c1.drop 3 else c1
  if c2.endsWith "```" then c2.dropRight 3 else c2

/-! ## Settings — `src/ragforge/settings.py` -/

structure Settings where
  enable_graphrag : Bool
  neo4j_password : Option String
  /-- Modelled from the spec: `settings.retrieval_strategy` is read by
  `ask` but the settings module under src does not define it; the spec
  fixes the default strategy name to "hybrid". -/
  retrieval_strategy : String
  /-- Modelled from the spec: `settings.default_system_prompt` is read by
  `ask` but the settings module under src does not define it; it is only
  forwarded to the opaque LLM call. -/
  default_system_prompt : String
  max_context_chunks : Nat

/-- The configuration defaults: `enable_graphrag = True` (settings.py line
71), `neo4j_password = None` when the environment variables are unset,
`max_context_chunks = 5`. -/
def defaultSettings : Settings := ⟨true, none, "hybrid", "", 5⟩

/-- A configuration with graph credentials present. -/
def configuredSettings : Settings := ⟨true, some "pw", "hybrid", "", 5⟩

/-! ## External-service outcomes and the pipeline -/

/-- Outcomes of the external services during one pipeline call: Neo4j
driver construction/connectivity/schema, vector-store construction, the
vector-store write and search, the graph write (`add_document_to_graph`,
which already wraps its own failures in GraphError) and context query, the
LLM response, and `json.loads` on the cleaned response text. -/
structure Env where
  neo4jConnect : Except String Unit
  vectorInit : Except RagError Unit
  vectorAdd : List String → Option (List Metadata) → Except RagError Unit
  vectorSearch : String → Nat → Option Metadata → Except RagError (List String)
  graphAdd : String → Except RagError Unit
  graphContext : String → Nat → Except RagError String
  llmResponse : Except RagError String
  jsonLoads : String → Option Json

/-- The availability state a `GraphStore` instance carries: whether
`self.driver` is set. -/
structure GraphStoreState where
  driver : Bool
deriving DecidableEq

/-- Modelled from the spec: `is_available` is declared abstractly in
src/src/ragforge/core/base.py but its implementation is not under src; per
the spec only the Connected state (driver present) is available, while
Unconfigured and Failed present as unavailable. -/
def GraphStoreState.isAvailable (g : GraphStoreState) : Bool := g.driver

def noPasswordMsg : String :=
  "NEO4J_PASSWORD environment variable is not set. Please set RAGFORGE_NEO4J_PASSWORD to use GraphRAG functionality."

/-- `get_graph_store()` → `GraphStore.__init__`
(src/ragforge/graph/neo4j_store.py lines 25-62): with GraphRAG disabled the
instance has no driver; with it enabled but no password a
`ConfigurationError` is raised; otherwise driver construction and
connectivity verification either succeed or raise `GraphError`. -/
def getGraphStoreModel (s : Settings) (env : Env) :
    Except RagError GraphStoreState :=
  if !s.enable_graphrag then .ok ⟨false⟩
  else
    match s.neo4j_password with
    | none => .error (.configuration noPasswordMsg)
    | some _ =>
      match env.neo4jConnect with
      | .ok _ => .ok ⟨true⟩
      | .error e => .error (.graph e)

/-! ## Retrieval strategies — src/src/ragforge/strategies/retrieval.py -/

/-- The vector store as the strategies see it. -/
structure VectorStoreModel where
  search : String → Nat → Option Metadata → Except RagError (List String)

/-- The graph store as the strategies see it. -/
structure GraphStoreModel where
  is_available : Bool
  get_graph_context : String → Nat → Except RagError String

/-- `VectorOnlyRetrievalStrategy.retrieve`: delegates to the vector search,
ignoring any graph store. -/
def vectorOnlyRetrieve (vs : VectorStoreModel) (query : String) (limit : Nat)
    (filter : Option Metadata) : Except RagError (List String) :=
  vs.search query limit filter

/-- `HybridRetrievalStrategy.retrieve`: vector search first (failures
propagate), then — when a graph store is supplied and available — appends
`"[Graph Context] " + ctx` when the context is non-empty; graph failures
are swallowed. -/
def hybridRetrieve (vs : VectorStoreModel) (gs : Option GraphStoreModel)
    (query : String) (limit max_entities : Nat) (filter : Option Metadata) :
    Except RagError (List String) := do
  let vector_results ← vs.search query limit filter
  match gs with
  | some g =>
    if g.is_available then
      match g.get_graph_context query max_entities with
      | .ok ctx =>
        if ctx = "" then pure vector_results
        else pure (vector_results ++ ["[Graph Context] " ++ ctx])
      | .error _ => pure vector_results
    else pure vector_results
  | none => pure vector_results

/-! ## Pipeline — `ingest` and `ask` (src/src/ragforge/rag.py) -/

/-- `ingest(texts, metadatas, use_graphrag)` (src/src/ragforge/rag.py lines
163-225).  Auto-detection constructs the graph store (construction
failures propagate — there is no try/except around it); the vector write
always runs next; the whole graph-construction phase is wrapped in
`try: ... except Exception: pass`, so every failure inside it is
swallowed. -/
def ingest (s : Settings) (env : Env) (texts : List String)
    (metadatas : Option (List Metadata)) (use_graphrag : Option Bool) :
    Except RagError Unit := do
  let use_graph ← match use_graphrag with
    | none => do
        let gs ← getGraphStoreModel s env
        pure gs.isAvailable
    | some b => pure b
  -- 1. Vector store ingestion (always):
  -- store = get_vector_store(); store.add_texts(texts, metadatas=metadatas)
  let _ ← env.vectorInit
  let _ ← env.vectorAdd texts metadatas
  -- 2. Graph construction (if available), silently swallowed on failure
  if use_graph then
    match (do
        let gs ← getGraphStoreModel s env
        if gs.isAvailable then
          texts.forM (fun t =>
            if pyStripStr t ≠ "" then env.graphAdd t else pure ())
        else pure () : Except RagError Unit) with
    | _ => pure ()
  else pure ()

def noInfoMsg : String :=
  "I could not find any relevant information in the knowledge base to answer your question."

def sysErrorMsg : String := "An unexpected system error occurred."

/-- The `{"facts": [], "answer": msg}` dictionaries `ask` builds on its
fallback paths. -/
def fallbackAnswer (msg : String) : Json :=
  .obj [("facts", .arr []), ("answer", .str msg)]

/-- Lift a `RagforgeError`-raising call into the exception flow of `ask`. -/
def liftR {α : Type} (x : Except RagError α) : Except PyExc α :=
  x.mapError .ragforge

/-- `ask(question, system_prompt, use_graphrag, llm_config,
retrieval_strategy)` (src/src/ragforge/rag.py lines 26-162).  `llm_config`
only tunes the opaque LLM call and is omitted.  The body is the outer
`try:`; `except RagforgeError` and `except Exception` are applied to its
outcome.  Inside the response parsing, only `json.JSONDecodeError` is
caught locally; the `ValueError` raised for missing keys (and the
`TypeError` from `in` on a non-container) escape to `except Exception`. -/
def ask (s : Settings) (env : Env) (question : String)
    (system_prompt : Option String) (use_graphrag : Option Bool)
    (retrieval_strategy : Option String) : Json :=
  let body : Except PyExc Json := do
    -- system_prompt = system_prompt or settings.default_system_prompt
    -- (forwarded only to the LLM call, abstracted by env.llmResponse)
    let _sys := match system_prompt with
      | some p => if p = "" then s.default_system_prompt else p
      | none => s.default_system_prompt
    let use_graph ← match use_graphrag with
      | none => do
          let gs ← liftR (getGraphStoreModel s env)
          pure gs.isAvailable
      | some b => pure b
    -- strategy_name = retrieval_strategy or settings.retrieval_strategy;
    -- "vector_only" selects VectorOnly, anything else selects Hybrid
    -- (unknown names log a warning and use Hybrid)
    let strategy_name := match retrieval_strategy with
      | some r => if r = "" then s.retrieval_strategy else r
      | none => s.retrieval_strategy
    let useHybrid := !(strategy_name == "vector_only")
    -- vector_store = get_vector_store()
    let _ ← liftR env.vectorInit
    -- graph_store = get_graph_store() if use_graph else None
    let gstore ← if use_graph then do
        let st ← liftR (getGraphStoreModel s env)
        pure (some (⟨st.isAvailable, env.graphContext⟩ : GraphStoreModel))
      else pure none
    let retrieved ← liftR (if useHybrid then
        hybridRetrieve ⟨env.vectorSearch⟩ gstore question s.max_context_chunks 5 none
      else
        vectorOnlyRetrieve ⟨env.vectorSearch⟩ question s.max_context_chunks none)
    if retrieved.isEmpty then
      pure (fallbackAnswer noInfoMsg)
    else do
      -- the prompt built from the retrieved context feeds the opaque LLM
      let raw ← liftR env.llmResponse
      let cleaned := cleanResponse raw
      match env.jsonLoads cleaned with
      | none => pure (fallbackAnswer raw)   -- except json.JSONDecodeError
      | some parsed =>
        match pyContains parsed "facts" with
        | none => throw .otherExc           -- TypeError from `in`
        | some hasFacts =>
          if !hasFacts then throw .otherExc -- raise ValueError(...)
          else
            match pyContains parsed "answer" with
            | none => throw .otherExc
            | some hasAnswer =>
              if !hasAnswer then throw .otherExc
              else pure parsed
  match body with
  | .ok j => j
  | .error (.ragforge e) =>
    fallbackAnswer ("An error occurred while processing your request: " ++ e.msg)
  | .error .otherExc => fallbackAnswer sysErrorMsg

/-- Concrete external world for exercising the response-parsing path of
`ask`: one retrieved document, a fixed raw LLM response, and a fixed
`json.loads` outcome. -/
def askDemoEnv (raw : String) (parsed : Option Json) : Env :=
  ⟨.ok (), .ok (), fun _ _ => .ok (), fun _ _ _ => .ok ["doc"],
   fun _ => .ok (), fun _ _ => .ok "", .ok raw, fun _ => parsed⟩

/-- Concrete external world in which the graph store connects but every
graph write fails, while the vector store works. -/
def failingGraphEnv : Env :=
  ⟨.ok (), .ok (), fun _ _ => .ok (), fun _ _ _ => .ok [],
   fun _ => .error (.graph "write failed"), fun _ _ => .error (.graph "down"),
   .ok "", fun _ => none⟩

/-- A concrete vector store answering every search with two documents. -/
def demoVS : VectorStoreModel := ⟨fun _ _ _ => .ok ["d1", "d2"]⟩

/-- A concrete available graph store with a fixed non-empty context. -/
def demoGS : GraphStoreModel := ⟨true, fun _ _ => .ok "Paris relates to France"⟩

/-- Length agreement for an optional argument list, as `add_texts` checks
it: absent arguments always agree. -/
def optLenIs {α : Type} (n : Nat) : Option (List α) → Prop
  | none => True
  | some xs => xs.length = n

instance {α : Type} (n : Nat) : (o : Option (List α)) → Decidable (optLenIs n o)
  | none => isTrue trivial
  | some xs => Nat.decEq xs.length n

/-! ## Theorems -/

section ListFacts

lemma take_isPre (n : Nat) (l : List Char) : l.take n <+: l :=
  List.take_prefix n l

lemma rdropWhile_isPre (p : Char → Bool) (l : List Char) :
    l.rdropWhile p <+: l :=
  List.rdropWhile_prefix p l

lemma isPrefix_head? {l₁ l₂ : List Char} (hp : l₁ <+: l₂) (h : l₁ ≠ []) :
    l₂.head? = l₁.head? := by
  obtain ⟨t, rfl⟩ := hp
  rw [List.head?_append, List.head?_eq_head h]
  rfl

end ListFacts

section ChunkerFacts

lemma pyStrip_isInfix (l : List Char) : pyStrip l <:+: l :=
  ((rdropWhile_isPre isPySpace _).isInfix).trans
    ((List.dropWhile_suffix isPySpace).isInfix)

lemma pyStrip_length_le (l : List Char) : (pyStrip l).length ≤ l.length :=
  (pyStrip_isInfix l).length_le

lemma pyStrip_head?_not_space (l : List Char) (a : Char)
    (ha : (pyStrip l).head? = some a) : isPySpace a = false := by
  have h : pyStrip l ≠ [] := by
    intro hnil; rw [hnil] at ha; simp at ha
  have hy : l.dropWhile isPySpace ≠ [] := by
    intro hnil
    apply h
    unfold pyStrip
    rw [hnil, List.rdropWhile_nil]
  have h2 : (l.dropWhile isPySpace).head? = some a := by
    rw [isPrefix_head? (rdropWhile_isPre isPySpace _) h]
    exact ha
  rw [List.head?_eq_head hy] at h2
  have h3 := List.head_dropWhile_not isPySpace l hy
  rw [Option.some_inj.mp h2] at h3
  exact h3

lemma pyStrip_getLast?_not_space (l : List Char) (a : Char)
    (ha : (pyStrip l).getLast? = some a) : isPySpace a = false := by
  have h : pyStrip l ≠ [] := by
    intro hnil; rw [hnil] at ha; simp at ha
  have h3 := List.rdropWhile_last_not isPySpace (l.dropWhile isPySpace)
    (by unfold pyStrip at h; exact h)
  rw [List.getLast?_eq_getLast _ h] at ha
  have hb : (pyStrip l).getLast h = a := Option.some_inj.mp ha
  unfold pyStrip at hb
  rw [hb] at h3
  simpa using h3

lemma pySlice_isInfix (l : List Char) (a b : Int) : pySlice l a b <:+: l :=
  ((List.drop_suffix _ _).isInfix).trans ((take_isPre _ l).isInfix)

lemma sliceIdx_add_le (len : Nat) (a : Int) (c : Nat) :
    sliceIdx len (a + (c : Int)) ≤ sliceIdx len a + c := by
  unfold sliceIdx
  split_ifs <;> omega

lemma pySlice_window_length (l : List Char) (a : Int) (c : Nat) :
    (pySlice l a (a + (c : Int))).length ≤ c := by
  unfold pySlice
  rw [List.length_drop, List.length_take]
  have := sliceIdx_add_le l.length a c
  omega

lemma chunkCore_isInfix (text : List Char) (cs : Nat) (start : Int) :
    (chunkCore text cs start).1 <:+: text := by
  simp only [chunkCore]
  split
  · split
    · exact ((take_isPre _ _).isInfix).trans (pySlice_isInfix text _ _)
    · exact pySlice_isInfix text _ _
  · exact pySlice_isInfix text _ _

lemma chunkCore_length_le (text : List Char) (cs : Nat) (start : Int) :
    (chunkCore text cs start).1.length ≤ cs := by
  simp only [chunkCore]
  have hw := pySlice_window_length text start cs
  split
  · split
    · rw [List.length_take]
      exact le_trans (Nat.min_le_right _ _) hw
    · exact hw
  · exact hw

/-- Every element produced by the chunking loop (at any fuel and any start
position) is the `strip` of a window that is a contiguous segment of the
input of length at most `chunk_size`. -/
lemma chunkLoop_mem (text : List Char) (cs co : Nat) :
    ∀ (fuel : Nat) (start : Int) (c : List Char),
      c ∈ chunkLoop text cs co fuel start →
      ∃ raw, c = pyStrip raw ∧ raw <:+: text ∧ raw.length ≤ cs := by
  intro fuel
  induction fuel with
  | zero => intro start c hc; simp [chunkLoop] at hc
  | succ n ih =>
    intro start c hc
    unfold chunkLoop at hc
    split at hc
    · rcases List.mem_cons.mp hc with h1 | h2
      · exact ⟨(chunkCore text cs start).1, by simpa [chunkStep] using h1,
          chunkCore_isInfix text cs start, chunkCore_length_le text cs start⟩
      · split at h2
        · simp at h2
        · exact ih _ c h2
    · simp at hc

end ChunkerFacts

/-- C4: the claim says the chunking loop of `SentenceChunkingStrategy.chunk`
terminates for every `chunk_size > 0` and `chunk_overlap ≥ 0`, the start
cursor strictly advancing on every iteration.  The code violates this: on
the 301-character input `stallText` with `chunk_size = 101` and
`chunk_overlap = 100`, the loop reaches `start = 51` after 52 iterations,
and from there each iteration truncates the window at the terminator 100
characters in, computes `end = 151` and `nextStart = 151 - 100 = 51` — the
cursor never advances again while `51 < 301`, so the Python `while` loop
never exits. -/
theorem sentenceChunk_loop_stalls :
    startIter stallText 101 100 52 = 51 ∧
    (chunkStep stallText 101 100 51).2 = 51 ∧
    ((51 : Int) < (stallText.length : Int)) := by
  refine ⟨?_, ?_, ?_⟩
  · set_option maxRecDepth 100000 in decide
  · set_option maxRecDepth 10000 in decide
  · decide

/-- C9: every chunk returned by `SentenceChunkingStrategy.chunk` for a
positive `chunk_size` is a non-empty character sequence with no leading or
trailing whitespace, of length at most `chunk_size`, and is a contiguous
substring of the input text (the chunk equals a trimmed window of the
input). -/
theorem sentenceChunk_wellformed (text : List Char) (chunk_size chunk_overlap : Int)
    (hcs : 0 < chunk_size) :
    ∀ c ∈ sentenceChunk text chunk_size chunk_overlap,
      c ≠ [] ∧ c.length ≤ chunk_size.toNat ∧
      (∀ a, c.head? = some a → isPySpace a = false) ∧
      (∀ a, c.getLast? = some a → isPySpace a = false) ∧
      c <:+: text := by
  intro c hc
  unfold sentenceChunk at hc
  rw [if_neg (not_le.mpr hcs)] at hc
  rw [List.mem_filter] at hc
  obtain ⟨hmem, hne⟩ := hc
  obtain ⟨raw, rfl, hinfix, hlen⟩ := chunkLoop_mem text _ _ _ _ _ hmem
  have hne' : pyStrip raw ≠ [] := by simpa using hne
  refine ⟨hne', ?_, ?_, ?_, ?_⟩
  · exact le_trans (pyStrip_length_le raw) hlen
  · intro a ha; exact pyStrip_head?_not_space raw a ha
  · intro a ha; exact pyStrip_getLast?_not_space raw a ha
  · exact (pyStrip_isInfix raw).trans hinfix

/-- Witness for C9 at `chunk("hello world", 5, 0)` and its first chunk. -/
theorem sentenceChunk_wellformed_witness :
    (0 : Int) < 5 ∧
    ("hello".data ≠ [] ∧ "hello".data.length ≤ (5 : Int).toNat ∧
      (∀ a, "hello".data.head? = some a → isPySpace a = false) ∧
      (∀ a, "hello".data.getLast? = some a → isPySpace a = false) ∧
      "hello".data <:+: "hello world".data) :=
  ⟨by decide,
    sentenceChunk_wellformed "hello world".data 5 0 (by decide)
      "hello".data (by decide)⟩

/-- C1: the claim says that with no Neo4j password and graph features at
their defaults, `ingest` and `ask` behave exactly like vector-only mode and
raise nothing.  The code violates this: `enable_graphrag` defaults to
`True`, so `GraphStore.__init__` raises `ConfigurationError` when the
password is absent; auto-detection in `ingest` runs before — and outside —
any try/except, so `ingest` fails (the vector store is never reached), and
`ask` catches the error in its `except RagforgeError` handler and returns
an error answer instead of the vector-only result. -/
theorem unconfigured_graph_raises_configuration_error :
    ∀ (env : Env) (texts : List String) (metadatas : Option (List Metadata))
      (question : String) (sp rs : Option String),
      ingest defaultSettings env texts metadatas none =
        .error (.configuration noPasswordMsg) ∧
      ask defaultSettings env question sp none rs =
        fallbackAnswer
          ("An error occurred while processing your request: " ++ noPasswordMsg) := by
  intro env texts metadatas question sp rs
  exact ⟨rfl, rfl⟩

/-- C2: the claim says that an LLM response that is valid JSON but lacks
the "facts" (or "answer") key yields the fallback
`{facts: [], answer: <raw text>}`, like invalid JSON does.  The code
violates the first half: the `raise ValueError` for missing keys is not a
`json.JSONDecodeError`, so the local handler does not catch it and the
outer `except Exception` returns the generic
"An unexpected system error occurred." answer instead.  Invalid JSON
(second conjunct) does return the raw text. -/
theorem ask_missing_key_returns_generic_error :
    ask defaultSettings
        (askDemoEnv "\x7b\"answer\": \"hi\"\x7d"
          (some (Json.obj [("answer", Json.str "hi")])))
        "q" none (some false) (some "vector_only") =
      fallbackAnswer sysErrorMsg ∧
    ask defaultSettings (askDemoEnv "not json" none)
        "q" none (some false) (some "vector_only") =
      fallbackAnswer "not json" :=
  ⟨rfl, rfl⟩

/-- C3 counterexample: with `use_graphrag = True` explicitly and a graph
store whose `add_document_to_graph` raises GraphError, `ingest` still
returns normally — the claim says the failure propagates as GraphError. -/
theorem ingest_swallows_explicit_graph_failure :
    ingest configuredSettings failingGraphEnv ["x"] none (some true) = .ok () := by
  rfl

/-- C3 (amended): a graph-store write failure never propagates out of
`ingest` — the whole graph-construction phase sits inside
`try: ... except Exception: pass`, for an explicit `use_graphrag=True`
just as for auto-detected use; once the vector-store write succeeds,
`ingest` returns normally whatever the graph store does. -/
theorem ingest_graph_failures_swallowed (s : Settings) (env : Env)
    (texts : List String) (metadatas : Option (List Metadata))
    (hv : env.vectorInit = .ok ())
    (hadd : env.vectorAdd texts metadatas = .ok ()) :
    (∀ b : Bool, ingest s env texts metadatas (some b) = .ok ()) ∧
    (∀ st, getGraphStoreModel s env = .ok st →
      ingest s env texts metadatas none = .ok ()) := by
  constructor
  · intro b
    unfold ingest
    rw [hv, hadd]
    cases b <;> rfl
  · intro st hst
    obtain ⟨d⟩ := st
    unfold ingest
    rw [hst, hv, hadd]
    cases d <;> rfl

/-- Witness for the amended C3 at a failing graph store. -/
theorem ingest_graph_failures_swallowed_witness :
    failingGraphEnv.vectorInit = .ok () ∧
    failingGraphEnv.vectorAdd ["x"] none = .ok () ∧
    ingest configuredSettings failingGraphEnv ["x"] none (some false) = .ok () :=
  ⟨rfl, rfl,
    (ingest_graph_failures_swallowed configuredSettings failingGraphEnv
      ["x"] none rfl rfl).1 false⟩

section GraphFacts

lemma mergeEntity_rels (g : Graph) (now : Nat) (c : EntityCand) :
    (mergeEntity g now c).rels = g.rels := by
  simp only [mergeEntity]
  split
  · rfl
  · split <;> rfl

lemma mergeEntity_id_mono (g : Graph) (now : Nat) (c : EntityCand) :
    ∀ e ∈ g.entities, ∃ e' ∈ (mergeEntity g now c).entities, e'.id = e.id := by
  intro e he
  simp only [mergeEntity]
  split
  · exact ⟨e, he, rfl⟩
  · split
    · refine ⟨_, List.mem_map_of_mem _ he, ?_⟩
      dsimp only
      split <;> rfl
    · exact ⟨e, List.mem_append_left _ he, rfl⟩

lemma foldlEntities_rels (now : Nat) (cs : List EntityCand) :
    ∀ g : Graph, (cs.foldl (fun acc c => mergeEntity acc now c) g).rels = g.rels := by
  induction cs with
  | nil => intro g; rfl
  | cons c cs ih =>
    intro g
    rw [List.foldl_cons, ih, mergeEntity_rels]

lemma foldlEntities_id_mono (now : Nat) (cs : List EntityCand) :
    ∀ g : Graph, ∀ e ∈ g.entities,
      ∃ e' ∈ (cs.foldl (fun acc c => mergeEntity acc now c) g).entities,
        e'.id = e.id := by
  induction cs with
  | nil => intro g e he; exact ⟨e, he, rfl⟩
  | cons c cs ih =>
    intro g e he
    rw [List.foldl_cons]
    obtain ⟨e1, he1, hid1⟩ := mergeEntity_id_mono g now c e he
    obtain ⟨e2, he2, hid2⟩ := ih (mergeEntity g now c) e1 he1
    exact ⟨e2, he2, hid2.trans hid1⟩

lemma lookupByName_mem (g : Graph) (name i : String)
    (h : lookupByName g name = some i) : ∃ e ∈ g.entities, e.id = i := by
  unfold lookupByName at h
  cases hf : g.entities.find? (fun e => e.name == name) with
  | none => rw [hf] at h; simp at h
  | some e0 =>
    rw [hf] at h
    simp only [Option.map_some'] at h
    exact ⟨e0, List.mem_of_find?_eq_some hf, Option.some_inj.mp h⟩

lemma mergeEntity_integrity (g : Graph) (now : Nat) (c : EntityCand)
    (hg : RelIntegrity g) : RelIntegrity (mergeEntity g now c) := by
  intro r hr
  rw [mergeEntity_rels] at hr
  obtain ⟨⟨es, hes, hids⟩, ⟨et, het, hidt⟩⟩ := hg r hr
  obtain ⟨es', hes', hids'⟩ := mergeEntity_id_mono g now c es hes
  obtain ⟨et', het', hidt'⟩ := mergeEntity_id_mono g now c et het
  exact ⟨⟨es', hes', hids'.trans hids⟩, ⟨et', het', hidt'.trans hidt⟩⟩

lemma mergeRel_entities (g : Graph) (now : Nat) (c : RelCand) :
    (mergeRel g now c).entities = g.entities := by
  simp only [mergeRel]
  split
  · rfl
  · split
    · rfl
    · split
      · rfl
      · split <;> rfl

lemma mergeRel_integrity (g : Graph) (now : Nat) (c : RelCand)
    (hg : RelIntegrity g) : RelIntegrity (mergeRel g now c) := by
  have hent := mergeRel_entities g now c
  intro r hr
  rw [hent]
  simp only [mergeRel] at hr
  split at hr
  · exact hg r hr
  · split at hr
    · exact hg r hr
    · rename_i source_id hs
      split at hr
      · exact hg r hr
      · rename_i target_id ht
        split at hr
        · -- update branch: src/tgt of every edge are preserved
          simp only at hr
          obtain ⟨r0, hr0, hfr⟩ := List.mem_map.mp hr
          have hsrc : r.src = r0.src ∧ r.tgt = r0.tgt := by
            rw [← hfr]
            split <;> exact ⟨rfl, rfl⟩
          rw [hsrc.1, hsrc.2]
          exact hg r0 hr0
        · -- append branch: the new edge's endpoints were just resolved
          simp only at hr
          rcases List.mem_append.mp hr with hold | hnew
          · exact hg r hold
          · have hr' : r = ⟨source_id, target_id,
                pyReplaceSpaceUnderscore (pyUpper c.rtype), pyStripStr c.description,
                now, now⟩ := by simpa using hnew
            subst hr'
            exact ⟨lookupByName_mem g _ _ hs, lookupByName_mem g _ _ ht⟩

lemma foldlRels_integrity (now : Nat) (cs : List RelCand) :
    ∀ g : Graph, RelIntegrity g →
      RelIntegrity (cs.foldl (fun acc c => mergeRel acc now c) g) := by
  induction cs with
  | nil => intro g hg; exact hg
  | cons c cs ih =>
    intro g hg
    rw [List.foldl_cons]
    exact ih _ (mergeRel_integrity g now c hg)

lemma foldlEntities_integrity (now : Nat) (cs : List EntityCand) :
    ∀ g : Graph, RelIntegrity g →
      RelIntegrity (cs.foldl (fun acc c => mergeEntity acc now c) g) := by
  induction cs with
  | nil => intro g hg; exact hg
  | cons c cs ih =>
    intro g hg
    rw [List.foldl_cons]
    exact ih _ (mergeEntity_integrity g now c hg)

end GraphFacts

instance (g : Graph) : Decidable (RelIntegrity g) := by
  unfold RelIntegrity
  infer_instance

/-- C6: relationship integrity.  (1) `add_document_to_graph` preserves the
invariant that every stored edge's endpoints exist in the store: a skipped
or no-op call leaves the store unchanged, entity merging never removes an
id, and every edge written has just had both endpoints resolved against the
entities present at that moment.  (2) A candidate whose source or target
name fails to resolve is skipped without writing anything.  (3) Hence any
sequence of `add_document_to_graph` calls from an empty store satisfies the
invariant. -/
theorem addDocument_relationship_integrity :
    (∀ (g : Graph) (driver : Bool) (ext : Extraction) (now : Nat),
      RelIntegrity g → RelIntegrity (addDocumentToGraph g driver ext now)) ∧
    (∀ (g : Graph) (now : Nat) (c : RelCand),
      pyStripStr c.source ≠ "" → pyStripStr c.target ≠ "" →
      (lookupByName g (pyStripStr c.source) = none ∨
        lookupByName g (pyStripStr c.target) = none) →
      mergeRel g now c = g) ∧
    (∀ ops : List (Extraction × Nat), RelIntegrity (runGraphOps ops)) := by
  have hmain : ∀ (g : Graph) (driver : Bool) (ext : Extraction) (now : Nat),
      RelIntegrity g → RelIntegrity (addDocumentToGraph g driver ext now) := by
    intro g driver ext now hg
    unfold addDocumentToGraph
    split
    · exact hg
    · split
      · exact hg
      · exact foldlRels_integrity now ext.relationships _
          (foldlEntities_integrity now ext.entities g hg)
  refine ⟨hmain, ?_, ?_⟩
  · intro g now c hsn htn hmiss
    simp only [mergeRel]
    rw [if_neg (by push_neg; exact ⟨hsn, htn⟩)]
    rcases hmiss with hm | hm
    · rw [hm]
    · cases hs : lookupByName g (pyStripStr c.source) with
      | none => rfl
      | some sid => rw [hm]
  · intro ops
    have : ∀ (l : List (Extraction × Nat)) (g : Graph), RelIntegrity g →
        RelIntegrity (l.foldl (fun g op => addDocumentToGraph g true op.1 op.2) g) := by
      intro l
      induction l with
      | nil => intro g hg; exact hg
      | cons op l ih =>
        intro g hg
        rw [List.foldl_cons]
        exact ih _ (hmain g true op.1 op.2 hg)
    exact this ops emptyGraph (by decide)

/-- Witness for C6 on concrete stores and candidates. -/
theorem addDocument_relationship_integrity_witness :
    RelIntegrity parisGraph ∧
    RelIntegrity (addDocumentToGraph parisGraph true caseDemoExt 3) ∧
    (pyStripStr "paris" ≠ "" ∧ pyStripStr "France" ≠ "" ∧
      (lookupByName emptyGraph (pyStripStr "paris") = none ∨
        lookupByName emptyGraph (pyStripStr "France") = none) ∧
      mergeRel emptyGraph 0 ⟨"paris", "France", "NEAR", ""⟩ = emptyGraph) ∧
    RelIntegrity (runGraphOps [(caseDemoExt, 0), (caseDemoExt, 1)]) := by
  have h := addDocument_relationship_integrity
  exact ⟨by decide, h.1 parisGraph true caseDemoExt 3 (by decide),
    ⟨by decide, by decide, by decide,
      h.2.1 emptyGraph 0 ⟨"paris", "France", "NEAR", ""⟩ (by decide) (by decide)
        (by decide)⟩,
    h.2.2 [(caseDemoExt, 0), (caseDemoExt, 1)]⟩

/-- C5 counterexample: the relationship candidate's source name `paris`
matches the merged entity name `Paris` case-insensitively, yet the edge is
not created — `add_document_to_graph` resolves endpoints with a
case-sensitive `MATCH (e:Entity {name: $name})`, so the candidate is
dropped. -/
theorem caseInsensitive_match_does_not_resolve :
    (pyLower "paris" = pyLower "Paris") ∧
    (∃ e ∈ (addDocumentToGraph emptyGraph true caseDemoExt 0).entities,
      e.name = "Paris") ∧
    (addDocumentToGraph emptyGraph true caseDemoExt 0).rels = [] := by
  refine ⟨by decide, by decide, by decide⟩

/-- C5 (amended): endpoint resolution in `add_document_to_graph` requires
an exact, case-sensitive match of the stored entity name: whenever the
trimmed source and target names each resolve via `lookupByName` (exact
match on `name`), the edge between the resolved ids is created (or merged);
a candidate that matches only up to case is silently dropped (see the
counterexample). -/
theorem addDocument_resolves_exact_names (g : Graph) (now : Nat) (c : RelCand)
    (sid tid : String)
    (hsn : pyStripStr c.source ≠ "") (htn : pyStripStr c.target ≠ "")
    (hs : lookupByName g (pyStripStr c.source) = some sid)
    (ht : lookupByName g (pyStripStr c.target) = some tid) :
    ∃ r ∈ (addDocumentToGraph g true ⟨[], [c]⟩ now).rels,
      r.src = sid ∧ r.tgt = tid := by
  have hstep : addDocumentToGraph g true ⟨[], [c]⟩ now = mergeRel g now c := by
    rfl
  rw [hstep]
  simp only [mergeRel]
  rw [if_neg (by push_neg; exact ⟨hsn, htn⟩), hs, ht]
  dsimp only
  split
  · rename_i hfound
    obtain ⟨r0, hr0⟩ := Option.isSome_iff_exists.mp hfound
    have hp := List.find?_some hr0
    simp only [Bool.and_eq_true, beq_iff_eq] at hp
    refine ⟨_, List.mem_map_of_mem _ (List.mem_of_find?_eq_some hr0), ?_⟩
    dsimp only
    rw [if_pos]
    · exact ⟨hp.1.1, hp.1.2⟩
    · simp [hp.1.1, hp.1.2, hp.2]
  · exact ⟨⟨sid, tid, pyReplaceSpaceUnderscore (pyUpper c.rtype),
      pyStripStr c.description, now, now⟩,
      List.mem_append_right _ (List.mem_singleton.mpr rfl), rfl, rfl⟩

/-- Witness for the amended C5 on a concrete store. -/
theorem addDocument_resolves_exact_names_witness :
    (pyStripStr "Paris" ≠ "") ∧ (pyStripStr "France" ≠ "") ∧
    lookupByName parisGraph (pyStripStr "Paris") = some "LOCATION:Paris" ∧
    lookupByName parisGraph (pyStripStr "France") = some "LOCATION:France" ∧
    ∃ r ∈ (addDocumentToGraph parisGraph true
        ⟨[], [⟨"Paris", "France", "NEAR", ""⟩]⟩ 1).rels,
      r.src = "LOCATION:Paris" ∧ r.tgt = "LOCATION:France" :=
  ⟨by decide, by decide, by decide, by decide,
    addDocument_resolves_exact_names parisGraph 1 ⟨"Paris", "France", "NEAR", ""⟩
      "LOCATION:Paris" "LOCATION:France"
      (by decide) (by decide) (by decide) (by decide)⟩

/-- C7: whenever the vector search succeeds with results `vr` and the graph
store is available with a non-empty context, `HybridRetrievalStrategy`
returns exactly the `VectorOnlyRetrievalStrategy` result followed by the
single `"[Graph Context] ..."` entry: the first `|vr|` entries coincide
with the vector-only retrieval and the graph entry is the last element. -/
theorem hybrid_refines_vectorOnly (vs : VectorStoreModel) (g : GraphStoreModel)
    (query : String) (limit max_entities : Nat) (filter : Option Metadata)
    (vr : List String) (ctx : String)
    (hs : vs.search query limit filter = .ok vr) (hvr : vr ≠ [])
    (hav : g.is_available = true)
    (hctx : g.get_graph_context query max_entities = .ok ctx)
    (hne : ctx ≠ "") :
    vectorOnlyRetrieve vs query limit filter = .ok vr ∧
    hybridRetrieve vs (some g) query limit max_entities filter =
      .ok (vr ++ ["[Graph Context] " ++ ctx]) ∧
    (vr ++ ["[Graph Context] " ++ ctx]).take vr.length = vr ∧
    (vr ++ ["[Graph Context] " ++ ctx]).getLast? =
      some ("[Graph Context] " ++ ctx) := by
  refine ⟨hs, ?_, List.take_left _ _, List.getLast?_concat _⟩
  unfold hybridRetrieve
  rw [hs]
  show (match some g with
    | some g =>
      if g.is_available then
        match g.get_graph_context query max_entities with
        | .ok ctx =>
          if ctx = "" then pure vr
          else pure (vr ++ ["[Graph Context] " ++ ctx])
        | .error _ => pure vr
      else pure vr
    | none => pure vr : Except RagError (List String)) = _
  simp only [hav, hctx, if_true, hne, if_neg hne]
  rfl

/-- Witness for C7 on concrete stores. -/
theorem hybrid_refines_vectorOnly_witness :
    demoVS.search "q" 5 none = .ok ["d1", "d2"] ∧
    (["d1", "d2"] : List String) ≠ [] ∧
    demoGS.is_available = true ∧
    demoGS.get_graph_context "q" 5 = .ok "Paris relates to France" ∧
    "Paris relates to France" ≠ "" ∧
    (vectorOnlyRetrieve demoVS "q" 5 none = .ok ["d1", "d2"] ∧
      hybridRetrieve demoVS (some demoGS) "q" 5 5 none =
        .ok (["d1", "d2"] ++ ["[Graph Context] " ++ "Paris relates to France"]) ∧
      (["d1", "d2"] ++ ["[Graph Context] " ++ "Paris relates to France"]).take
          (["d1", "d2"] : List String).length = ["d1", "d2"] ∧
      (["d1", "d2"] ++ ["[Graph Context] " ++ "Paris relates to France"]).getLast? =
        some ("[Graph Context] " ++ "Paris relates to France")) :=
  ⟨rfl, by decide, rfl, rfl, by decide,
    hybrid_refines_vectorOnly demoVS demoGS "q" 5 5 none ["d1", "d2"]
      "Paris relates to France" rfl (by decide) rfl rfl (by decide)⟩

/-- C8: for a non-empty `texts` list, `add_texts` raises a `ValueError`
before constructing any point or reaching the client whenever `metadatas`
is supplied with a different length, or `ids` is supplied with a different
length; when each supplied argument matches (or is omitted), no validation
error is raised and the call proceeds to the upsert. -/
theorem addTexts_validates_lengths (genId : Nat → String) (texts : List String)
    (h : texts ≠ []) :
    (∀ (ms : List Metadata) (ids : Option (List String)),
      ms.length ≠ texts.length →
      add_texts genId texts (some ms) ids =
        .error "metadatas must have the same length as texts") ∧
    (∀ (ms : Option (List Metadata)) (idl : List String),
      optLenIs texts.length ms → idl.length ≠ texts.length →
      add_texts genId texts ms (some idl) =
        .error "ids must have the same length as texts") ∧
    (∀ (ms : Option (List Metadata)) (ids : Option (List String)),
      optLenIs texts.length ms → optLenIs texts.length ids →
      ∃ pts, add_texts genId texts ms ids = .ok (.upsert pts)) := by
  have hne : texts.isEmpty = false := List.isEmpty_eq_false.mpr h
  have hOkM : ∀ ms : Option (List Metadata), optLenIs texts.length ms →
      ∃ l, validateMetadatas texts ms = .ok l := by
    intro ms hms
    cases ms with
    | none => exact ⟨_, rfl⟩
    | some m =>
      have hm : m.length = texts.length := hms
      exact ⟨m, by simp [validateMetadatas, hm]⟩
  have hOkI : ∀ ids : Option (List String), optLenIs texts.length ids →
      ∃ l, validateIds genId texts ids = .ok l := by
    intro ids hids
    cases ids with
    | none => exact ⟨_, rfl⟩
    | some idl =>
      have hi : idl.length = texts.length := hids
      exact ⟨idl, by simp [validateIds, hi]⟩
  refine ⟨?_, ?_, ?_⟩
  · intro ms ids hml
    unfold add_texts
    rw [hne]
    simp only [Bool.false_eq_true, if_false]
    rw [show validateMetadatas texts (some ms) =
        .error "metadatas must have the same length as texts" from by
      simp [validateMetadatas, hml]]
  · intro ms idl hml hil
    unfold add_texts
    rw [hne]
    simp only [Bool.false_eq_true, if_false]
    obtain ⟨l, hl⟩ := hOkM ms hml
    rw [hl, show validateIds genId texts (some idl) =
        .error "ids must have the same length as texts" from by
      simp [validateIds, hil]]
  · intro ms ids hml hil
    unfold add_texts
    rw [hne]
    simp only [Bool.false_eq_true, if_false]
    obtain ⟨l, hl⟩ := hOkM ms hml
    obtain ⟨li, hli⟩ := hOkI ids hil
    rw [hl, hli]
    exact ⟨_, rfl⟩

/-- Witness for C8 at `texts = ["a"]`. -/
theorem addTexts_validates_lengths_witness :
    (["a"] : List String) ≠ [] ∧
    add_texts (fun _ => "u") ["a"] (some [[], []]) none =
      .error "metadatas must have the same length as texts" ∧
    add_texts (fun _ => "u") ["a"] none (some ["i", "j"]) =
      .error "ids must have the same length as texts" ∧
    ∃ pts, add_texts (fun _ => "u") ["a"] none none = .ok (.upsert pts) := by
  have h := addTexts_validates_lengths (fun _ => "u") ["a"] (by decide)
  exact ⟨by decide, h.1 [[], []] none (by decide),
    h.2.1 none ["i", "j"] trivial (by decide),
    h.2.2 none none trivial trivial⟩

/-- C10: `add_texts` on an empty `texts` list returns immediately (no
client interaction) without raising, even when non-empty `metadatas` or
`ids` are supplied — the length validation is skipped entirely. -/
theorem addTexts_empty_early_return :
    ∀ (genId : Nat → String) (ms : List Metadata) (idl : List String),
      add_texts genId [] (some ms) (some idl) = .ok .earlyReturn := by
  intro genId ms idl
  rfl

end Ragforge
